import Mathlib

/-!
Verification of the QueryPlay session workspace core (src/app.py) against its
specification.  The Python source is shallowly embedded: the identifier
sanitizers, the CSV loader, the per-session SQLite store, the schema
introspection block and the query boundary become executable Lean functions
over `String`, `List Char` and association lists.  Library calls made by the
source (pandas `read_csv` / `to_sql` / `read_sql_query`, the SQLite engine)
are modelled by small executable functions whose doc comments state exactly
which behaviour of the library is captured.
-/

set_option autoImplicit false

namespace QueryPlay

/-- Model of Python `str.isalnum` for a single character.  Python's
`isalnum` is Unicode-aware; this model is exact on code points up to
U+017F (ASCII digits and letters; the Latin-1 supplement letters
U+00C0–U+00FF except the multiplication and division signs U+00D7 and
U+00F7; the Latin-1 alphanumerics ª µ º ¹ ² ³ ¼ ½ ¾; and Latin
Extended-A U+0100–U+017F, which consists entirely of letters).  Code
points above U+017F are conservatively treated as non-alphanumeric; no
theorem below depends on their value. -/
def pyIsAlnum (c : Char) : Bool :=
  decide ((48 ≤ c.toNat ∧ c.toNat ≤ 57) ∨ (65 ≤ c.toNat ∧ c.toNat ≤ 90) ∨
    (97 ≤ c.toNat ∧ c.toNat ≤ 122) ∨
    c.toNat = 0xAA ∨ c.toNat = 0xB5 ∨ c.toNat = 0xB9 ∨ c.toNat = 0xB2 ∨
    c.toNat = 0xB3 ∨ c.toNat = 0xBA ∨ c.toNat = 0xBC ∨ c.toNat = 0xBD ∨
    c.toNat = 0xBE ∨
    (0xC0 ≤ c.toNat ∧ c.toNat ≤ 0xFF ∧ c.toNat ≠ 0xD7 ∧ c.toNat ≠ 0xF7) ∨
    (0x100 ≤ c.toNat ∧ c.toNat ≤ 0x17F))

/-- The filter used on table-name characters in `load_data_to_db`
(src/app.py line 60): `c.isalnum() or c == '_'`. -/
def keepTableChar (c : Char) : Bool :=
  pyIsAlnum c || c == '_'

/-- Model of Python `str.split(sep)` for a one-character separator, on the
character list of the string: `"".split('.') = [""]`, `"a.b".split('.') =
["a","b"]`, `"a.".split('.') = ["a",""]`. -/
def splitChar (sep : Char) : List Char → List (List Char)
  | [] => [[]]
  | c :: cs =>
    match splitChar sep cs with
    | [] => [[]]
    | h :: t => if c == sep then [] :: h :: t else (c :: h) :: t

/-- Table-name sanitizer from `load_data_to_db` (src/app.py lines 58–60):
`table_name = uploaded_file.name.split('.')[0]` followed by
`"".join([c for c in table_name if c.isalnum() or c == '_'])`.
`split` always returns a nonempty list, so indexing with `[0]` is total. -/
def sanitize_table (s : String) : String :=
  ⟨((splitChar '.' s.data).headD []).filter keepTableChar⟩

/-- Modelled from the spec: the table-name derivation as §4.1 words it —
"strip a trailing extension (text after the final `.`)", then retain only
alphanumeric-or-underscore characters.  Declared only to be compared with
`sanitize_table`, which embeds the source. -/
def spec_table_name_final_dot (s : String) : String :=
  let base : List Char :=
    if '.' ∈ s.data then ((s.data.reverse.dropWhile (fun c => c != '.')).drop 1).reverse
    else s.data
  ⟨base.filter keepTableChar⟩

/-- The character class `[A-Za-z0-9_]` named by the spec's §8 property for
table names. -/
def asciiIdentChar (c : Char) : Bool :=
  decide ((48 ≤ c.toNat ∧ c.toNat ≤ 57) ∨ (65 ≤ c.toNat ∧ c.toNat ≤ 90) ∨
    (97 ≤ c.toNat ∧ c.toNat ≤ 122)) || c == '_'

/-- Model of Python `str.strip()` whitespace: the six ASCII whitespace
characters stripped by Python (space, tab, newline, carriage return,
vertical tab, form feed).  Python also strips Unicode whitespace; no
theorem below depends on characters outside this set. -/
def pyIsSpace (c : Char) : Bool :=
  decide (c.toNat = 32 ∨ c.toNat = 9 ∨ c.toNat = 10 ∨ c.toNat = 13 ∨
    c.toNat = 11 ∨ c.toNat = 12)

/-- Model of Python `str.strip()`: drop leading and trailing whitespace. -/
def pyStrip (l : List Char) : List Char :=
  ((l.dropWhile pyIsSpace).reverse.dropWhile pyIsSpace).reverse

/-- Model of Python `str.replace(old, new)` for one-character `old` and
`new`: replace every occurrence. -/
def replaceChar (old new : Char) (l : List Char) : List Char :=
  l.map (fun c => if c == old then new else c)

/-- Model of Python `str.replace(old, "")` for a one-character `old`:
delete every occurrence. -/
def removeChar (old : Char) (l : List Char) : List Char :=
  l.filter (fun c => c != old)

/-- The per-header cleaning chain of `sanitize_column_names`
(src/app.py lines 40–47), in source order: `strip()`, then replace each
of space, hyphen, period, slash by underscore, then delete both
parenthesis characters. -/
def sanitizeColumnChars (l : List Char) : List Char :=
  removeChar ')' (removeChar '(' (replaceChar '/' '_' (replaceChar '.' '_'
    (replaceChar '-' '_' (replaceChar ' ' '_' (pyStrip l))))))

/-- Column-name sanitizer: the string form of the per-header cleaning
chain applied inside `sanitize_column_names` (the spec's
`sanitize_column`). -/
def sanitize_column (s : String) : String :=
  ⟨sanitizeColumnChars s.data⟩

/-- Characters the spec forbids in sanitized column names: space, hyphen,
period, forward slash, and both parentheses. -/
def forbiddenColChar (c : Char) : Bool :=
  c == ' ' || c == '-' || c == '.' || c == '/' || c == '(' || c == ')'

/-! Basic lemmas about the character-level helpers. -/

theorem splitChar_ne_nil (sep : Char) (l : List Char) : splitChar sep l ≠ [] := by
  cases l with
  | nil => simp [splitChar]
  | cons c cs =>
    unfold splitChar
    cases splitChar sep cs with
    | nil => simp
    | cons h t =>
      by_cases hc : c == sep <;> simp [hc]

theorem splitChar_headD (sep : Char) (l : List Char) :
    (splitChar sep l).headD [] = l.takeWhile (fun c => c != sep) := by
  induction l with
  | nil => simp [splitChar]
  | cons c cs ih =>
    unfold splitChar
    cases hs : splitChar sep cs with
    | nil => exact absurd hs (splitChar_ne_nil sep cs)
    | cons h t =>
      by_cases hc : c = sep
      · subst hc
        simp [List.takeWhile]
      · have hb : (c == sep) = false := beq_eq_false_iff_ne.2 hc
        rw [hs] at ih
        simp only [List.headD] at ih
        simp [hb, bne, List.takeWhile, ih]

theorem mem_replaceChar {old new c : Char} {l : List Char}
    (h : c ∈ replaceChar old new l) : c = new ∨ (c ∈ l ∧ c ≠ old) := by
  unfold replaceChar at h
  rcases List.mem_map.1 h with ⟨a, ha, hmap⟩
  by_cases hao : a = old
  · left
    simp [hao] at hmap
    exact hmap.symm
  · right
    have hb : (a == old) = false := beq_eq_false_iff_ne.2 hao
    rw [hb] at hmap
    simp at hmap
    subst hmap
    exact ⟨ha, hao⟩

theorem mem_removeChar {old c : Char} {l : List Char}
    (h : c ∈ removeChar old l) : c ∈ l ∧ c ≠ old := by
  unfold removeChar at h
  rcases List.mem_filter.1 h with ⟨h1, h2⟩
  exact ⟨h1, by simpa using h2⟩

theorem sanitizeColumnChars_forbidden {l : List Char} {c : Char}
    (hc : c ∈ sanitizeColumnChars l) : forbiddenColChar c = false := by
  unfold sanitizeColumnChars at hc
  obtain ⟨hc, hnp2⟩ := mem_removeChar hc
  obtain ⟨hc, hnp1⟩ := mem_removeChar hc
  rcases mem_replaceChar hc with h | ⟨hc, hs4⟩
  · subst h; rfl
  rcases mem_replaceChar hc with h | ⟨hc, hs3⟩
  · subst h; rfl
  rcases mem_replaceChar hc with h | ⟨hc, hs2⟩
  · subst h; rfl
  rcases mem_replaceChar hc with h | ⟨_, hs1⟩
  · subst h; rfl
  simp [forbiddenColChar, hs1, hs2, hs3, hs4, hnp1, hnp2]

/-- A registered table: ordered column names and row data.  Cell values
are kept as the raw strings of the CSV; pandas' best-effort type
inference is not modelled (no claim depends on inferred types). -/
structure Table where
  columns : List String
  rows : List (List String)
deriving DecidableEq, Repr

/-- The per-session store: the tables held by the in-memory SQLite
connection of `st.session_state.db_conn`, as an association list from
table name to table. -/
abbrev Workspace := List (String × Table)

/-- Model of `sanitize_column_names` (src/app.py lines 35–50): rewrite
every column header through the per-header cleaning chain, leaving the
row data untouched. -/
def sanitize_column_names (t : Table) : Table :=
  { columns := t.columns.map sanitize_column, rows := t.rows }

/-- Model of `pd.read_csv` restricted to plain comma-separated text with
a header row (the format §6 names): lines split on newline, blank lines
skipped, fields split on commas, no quoting, cells kept as strings.  An
input with no nonblank line fails with pandas' `EmptyDataError` message;
a row whose field count differs from the header's fails with a
tokenizing error (real pandas pads short rows with missing values and
rejects long ones; no claim depends on the padding case). -/
def parseCsv (content : String) : Except String Table :=
  let lines := (splitChar '\n' content.data).filter (fun l => !l.isEmpty)
  match lines with
  | [] => Except.error "No columns to parse from file"
  | header :: body =>
    let cols : List String := (splitChar ',' header).map (fun cs => ⟨cs⟩)
    let rows : List (List String) :=
      body.map (fun line => (splitChar ',' line).map (fun cs => ⟨cs⟩))
    if rows.all (fun r => r.length == cols.length) then
      Except.ok { columns := cols, rows := rows }
    else
      Except.error "Error tokenizing data: unexpected number of fields"

/-- Model of `df.to_sql(table_name, conn, if_exists='replace',
index=False)` (src/app.py line 67): drop any existing table of that name
and create the new one.  SQLite rejects a `CREATE TABLE` whose column
names collide (`duplicate column name`), which pandas surfaces as an
exception; that rejection is the guard here. -/
def registerTable (name : String) (t : Table) (ws : Workspace) : Except String Workspace :=
  if t.columns.Nodup then
    Except.ok (ws.filter (fun p => p.1 != name) ++ [(name, t)])
  else
    Except.error ("duplicate column name")

/-- Model of `load_data_to_db` (src/app.py lines 52–71): derive the
table name from the file name, parse the CSV, sanitize the column
headers, register the table with replace semantics; every failure is
caught and returned as `(none, message)`, success as `(name, none)`.
The (possibly updated) workspace is returned alongside the result pair. -/
def load_data_to_db (fname content : String) (ws : Workspace) :
    (Option String × Option String) × Workspace :=
  let table_name := sanitize_table fname
  match parseCsv content with
  | Except.error e => ((none, some e), ws)
  | Except.ok df =>
    match registerTable table_name (sanitize_column_names df) ws with
    | Except.error e => ((none, some e), ws)
    | Except.ok ws2 => ((some table_name, none), ws2)

/-- Model of the schema introspection block (src/app.py lines 108–121):
list every table in `sqlite_master` with its column names from
`PRAGMA table_info` (column types are not modelled). -/
def describe (ws : Workspace) : List (String × List String) :=
  ws.map (fun p => (p.1, p.2.columns))

/-- Model of the Clear Database handler (src/app.py lines 127–131): the
connection is closed and deleted, and the session-state block
(lines 21–23) creates a fresh empty in-memory database on the next run. -/
def clear_database (_ : Workspace) : Workspace := []

/-- Modelled from the spec: the underlying relational engine is an
external capability — "accepts a query string, returns typed rows or an
error" (§9) — whose behaviour is not code of this repository.  This
fragment evaluates `SELECT * FROM name` by lookup and reports SQLite's
verbatim messages: `no such table: name` for an absent table, a `near
...: syntax error` otherwise.  Read queries do not change the store. -/
def sqlEngine (ws : Workspace) (q : String) : Except String Table :=
  if q.data.take 14 = "SELECT * FROM ".data then
    let name : String := ⟨(q.data.drop 14).takeWhile (fun c => c != ' ' && c != ';')⟩
    match ws.lookup name with
    | some t => Except.ok t
    | none => Except.error ("no such table: " ++ name)
  else
    Except.error ("near \"" ++ (⟨q.data.takeWhile (fun c => c != ' ')⟩ : String) ++ "\": syntax error")

/-- Model of the query boundary (src/app.py lines 163–166 and 237–238):
`pd.read_sql_query(query, conn)` inside `try`, with every exception
caught and surfaced as an error value; the workspace is passed through
unchanged. -/
def execute_query (ws : Workspace) (q : String) :
    (Option Table × Option String) × Workspace :=
  match sqlEngine ws q with
  | Except.ok t => ((some t, none), ws)
  | Except.error e => ((none, some e), ws)

/-- A column name is valid in the sense of §4.1: it contains none of the
characters the column sanitizer eliminates. -/
def validColumnName (s : String) : Bool :=
  s.data.all (fun c => !forbiddenColChar c)

/-- The §3 invariant of a registered table: column names are pairwise
distinct and each one is a valid identifier in the §4.1 sense. -/
def tableInv (t : Table) : Prop :=
  t.columns.Nodup ∧ ∀ c ∈ t.columns, validColumnName c = true

/-! Further helper lemmas. -/

theorem keepTableChar_ascii {c : Char} (h : c.toNat < 128) :
    keepTableChar c = asciiIdentChar c := by
  by_cases hu : c = '_'
  · subst hu; decide
  · have hb : (c == '_') = false := beq_eq_false_iff_ne.2 hu
    unfold keepTableChar asciiIdentChar pyIsAlnum
    rw [hb]
    simp only [Bool.or_false]
    rw [decide_eq_decide]
    omega

theorem mem_sanitize_table {c : Char} {s : String}
    (hc : c ∈ (sanitize_table s).data) : c ∈ s.data ∧ keepTableChar c = true := by
  have hd : (sanitize_table s).data = ((splitChar '.' s.data).headD []).filter keepTableChar := rfl
  rw [hd] at hc
  obtain ⟨h1, h2⟩ := List.mem_filter.1 hc
  refine ⟨?_, h2⟩
  rw [splitChar_headD] at h1
  exact (List.takeWhile_sublist _).subset h1

theorem lookup_append_singleton (n : String) (t : Table) (l : Workspace)
    (h : ∀ p ∈ l, p.1 ≠ n) : List.lookup n (l ++ [(n, t)]) = some t := by
  induction l with
  | nil => simp
  | cons p l ih =>
    have hne : p.1 ≠ n := h p (List.mem_cons_self p l)
    have hb : (n == p.1) = false := beq_eq_false_iff_ne.2 (fun e => hne e.symm)
    cases p with
    | mk k v =>
      simp only [List.cons_append, List.lookup]
      simp only at hb
      rw [hb]
      exact ih (fun q hq => h q (List.mem_cons_of_mem _ hq))

theorem countP_replace (n : String) (t : Table) (l : Workspace) :
    List.countP (fun p => p.1 == n) (l.filter (fun p => p.1 != n) ++ [(n, t)]) = 1 := by
  rw [List.countP_append]
  have h0 : List.countP (fun p => p.1 == n) (l.filter (fun p => p.1 != n)) = 0 := by
    rw [List.countP_eq_zero]
    intro p hp
    have h2 := (List.mem_filter.1 hp).2
    simp only [bne_iff_ne, ne_eq] at h2
    simp [h2]
  rw [h0]
  simp [List.countP_cons]

/-! Claim theorems. -/

/-- C1: a successful load leaves exactly one table in the store under the
derived name, and that table is the sanitized parse of the newly loaded
content — any prior table of that name is replaced wholesale, not merged
or appended to. -/
theorem load_replaces_wholesale (fname content : String) (ws : Workspace) (n : String)
    (h : ((load_data_to_db fname content ws).1).1 = some n) :
    n = sanitize_table fname ∧
    List.countP (fun p => p.1 == n) (load_data_to_db fname content ws).2 = 1 ∧
    ∃ t, parseCsv content = Except.ok t ∧
      ((load_data_to_db fname content ws).2).lookup n = some (sanitize_column_names t) := by
  cases hp : parseCsv content with
  | error e =>
    have hl : load_data_to_db fname content ws = ((none, some e), ws) := by
      simp [load_data_to_db, hp]
    rw [hl] at h
    simp at h
  | ok df =>
    cases hr : registerTable (sanitize_table fname) (sanitize_column_names df) ws with
    | error e =>
      have hl : load_data_to_db fname content ws = ((none, some e), ws) := by
        simp [load_data_to_db, hp, hr]
      rw [hl] at h
      simp at h
    | ok ws2 =>
      have hl : load_data_to_db fname content ws = ((some (sanitize_table fname), none), ws2) := by
        simp [load_data_to_db, hp, hr]
      rw [hl] at h ⊢
      simp only [Option.some.injEq] at h
      subst h
      unfold registerTable at hr
      split at hr
      case isTrue hnd =>
        injection hr with hr
        subst hr
        refine ⟨rfl, countP_replace _ _ _, df, rfl, ?_⟩
        apply lookup_append_singleton
        intro p hpmem
        have h2 := (List.mem_filter.1 hpmem).2
        simpa using h2
      case isFalse hnd => simp at hr

/-- C1 witness: loading `data.csv` over a workspace that already holds a
table named `data` leaves exactly one `data` table, holding the new
content. -/
theorem load_replaces_wholesale_witness :
    List.countP (fun p => p.1 == "data")
      (load_data_to_db "data.csv" "a,b\n1,2" [("data", ⟨["x"], [["9"]]⟩)]).2 = 1 :=
  (load_replaces_wholesale "data.csv" "a,b\n1,2" [("data", ⟨["x"], [["9"]]⟩)] "data"
    (by decide)).2.1

/-- C2 counterexample: the source takes the text before the first dot
(`split('.')[0]`), not before the final dot, so on `a.b.csv` the code
produces `a` while the spec derivation produces `ab`. -/
theorem table_name_first_dot_cex :
    sanitize_table "a.b.csv" = "a" ∧ spec_table_name_final_dot "a.b.csv" = "ab" ∧
    sanitize_table "a.b.csv" ≠ spec_table_name_final_dot "a.b.csv" :=
  ⟨by decide, by decide, by decide⟩

/-- C2 amended: the table name is the text before the FIRST dot of the
file identifier, with only alphanumeric-or-underscore characters
retained and all others dropped. -/
theorem sanitize_table_first_dot (s : String) :
    sanitize_table s = ⟨(s.data.takeWhile (fun c => c != '.')).filter keepTableChar⟩ := by
  unfold sanitize_table
  rw [splitChar_headD]

/-- C3 counterexample: the source keeps every character Python counts as
alphanumeric, which includes non-ASCII letters, so `café.csv` yields the
table name `café`, which is not drawn from `[A-Za-z0-9_]`. -/
theorem sanitize_table_nonascii_cex :
    sanitize_table "café.csv" = "café" ∧
    ((sanitize_table "café.csv").data.all asciiIdentChar) = false :=
  ⟨by decide, by decide⟩

/-- C3 amended: for ASCII input strings the table-name sanitizer emits
only characters in `[A-Za-z0-9_]`; in general every emitted character is
alphanumeric in the Unicode sense or an underscore. -/
theorem sanitize_table_ascii_subset (s : String)
    (h : ∀ c ∈ s.data, c.toNat < 128) :
    ((sanitize_table s).data.all asciiIdentChar) = true := by
  rw [List.all_eq_true]
  intro c hc
  obtain ⟨hin, hkeep⟩ := mem_sanitize_table hc
  rw [← keepTableChar_ascii (h c hin)]
  exact hkeep

/-- C3 witness: on the ASCII name `Sales Data!.csv` the sanitizer output
is drawn from `[A-Za-z0-9_]`. -/
theorem sanitize_table_ascii_subset_witness :
    ((sanitize_table "Sales Data!.csv").data.all asciiIdentChar) = true :=
  sanitize_table_ascii_subset "Sales Data!.csv" (by decide)

/-- C4: the column sanitizer trims, replaces space, hyphen, period and
slash by underscore and deletes parentheses, so its output never
contains any of those six characters; concretely,
`" Order-Date.x/(y) "` becomes `Order_Date_x_y`. -/
theorem sanitize_column_no_forbidden :
    (∀ s : String, (sanitize_column s).data.all (fun c => !forbiddenColChar c) = true) ∧
    sanitize_column " Order-Date.x/(y) " = "Order_Date_x_y" := by
  constructor
  · intro s
    rw [List.all_eq_true]
    intro c hc
    have hf := sanitizeColumnChars_forbidden (l := s.data) hc
    simp [hf]
  · decide

/-- C5: the load boundary is total and returns either a table name with
no error or no table name with an error message — every parse or
registration failure is converted to the `(none, error)` shape. -/
theorem load_result_shape (fname content : String) (ws : Workspace) :
    (∃ n, (load_data_to_db fname content ws).1 = (some n, none)) ∨
    (∃ e, (load_data_to_db fname content ws).1 = (none, some e)) := by
  cases hp : parseCsv content with
  | error e => exact Or.inr ⟨e, by simp [load_data_to_db, hp]⟩
  | ok df =>
    cases hr : registerTable (sanitize_table fname) (sanitize_column_names df) ws with
    | error e => exact Or.inr ⟨e, by simp [load_data_to_db, hp, hr]⟩
    | ok ws2 => exact Or.inl ⟨sanitize_table fname, by simp [load_data_to_db, hp, hr]⟩

/-- C6: executing any query leaves the workspace table set unchanged,
and a failing execution surfaces the engine message verbatim as the
error component instead of crashing. -/
theorem execute_error_frame (ws : Workspace) (q : String) :
    (execute_query ws q).2 = ws ∧
    ((execute_query ws q).1.2 = none ∨
      ∃ e, sqlEngine ws q = Except.error e ∧ (execute_query ws q).1 = (none, some e)) := by
  cases he : sqlEngine ws q with
  | ok t => exact ⟨by simp [execute_query, he], Or.inl (by simp [execute_query, he])⟩
  | error e => exact ⟨by simp [execute_query, he], Or.inr ⟨e, rfl, by simp [execute_query, he]⟩⟩

/-- C7: the schema of a fresh workspace is the empty mapping, and
clearing the database always yields an empty schema, whatever tables
were registered before. -/
theorem describe_empty_reset :
    describe ([] : Workspace) = [] ∧ ∀ ws : Workspace, describe (clear_database ws) = [] :=
  ⟨rfl, fun _ => rfl⟩

/-- C8: loading preserves the registered-table invariant — every table
in the store has pairwise distinct column names, each a valid identifier
in the §4.1 sense; a sanitized header collision is rejected by the store
rather than registered. -/
theorem loader_preserves_invariant (fname content : String) (ws : Workspace)
    (hws : ∀ p ∈ ws, tableInv p.2) :
    ∀ p ∈ (load_data_to_db fname content ws).2, tableInv p.2 := by
  cases hp : parseCsv content with
  | error e =>
    have hl : (load_data_to_db fname content ws).2 = ws := by simp [load_data_to_db, hp]
    rw [hl]; exact hws
  | ok df =>
    cases hr : registerTable (sanitize_table fname) (sanitize_column_names df) ws with
    | error e =>
      have hl : (load_data_to_db fname content ws).2 = ws := by simp [load_data_to_db, hp, hr]
      rw [hl]; exact hws
    | ok ws2 =>
      have hl : (load_data_to_db fname content ws).2 = ws2 := by simp [load_data_to_db, hp, hr]
      rw [hl]
      unfold registerTable at hr
      split at hr
      case isTrue hnd =>
        injection hr with hr
        subst hr
        intro p hpmem
        rcases List.mem_append.1 hpmem with hmem | hmem
        · exact hws p (List.mem_filter.1 hmem).1
        · have hp2 : p = (sanitize_table fname, sanitize_column_names df) := by
            simpa using hmem
          subst hp2
          refine ⟨hnd, ?_⟩
          intro c hcmem
          rcases List.mem_map.1 hcmem with ⟨c0, _, hcol⟩
          subst hcol
          unfold validColumnName
          rw [List.all_eq_true]
          intro ch hch
          have hf := sanitizeColumnChars_forbidden (l := c0.data) hch
          simp [hf]
      case isFalse hnd => simp at hr

/-- C8 witness: the table registered by loading `orders.csv` with header
`Order Date,Amount` satisfies the invariant. -/
theorem loader_preserves_invariant_witness :
    tableInv (Table.mk ["Order_Date", "Amount"] [["2024-01-01", "10"]]) :=
  loader_preserves_invariant "orders.csv" "Order Date,Amount\n2024-01-01,10" [] (by simp)
    ("orders", Table.mk ["Order_Date", "Amount"] [["2024-01-01", "10"]]) (by decide)

/-- C9: both sanitizers are deterministic functions of their input and
are total, with empty or degenerate input yielding an empty or
underscore-only identifier rather than an error. -/
theorem sanitizers_deterministic_total :
    (∀ s₁ s₂ : String, s₁ = s₂ → sanitize_table s₁ = sanitize_table s₂ ∧
      sanitize_column s₁ = sanitize_column s₂) ∧
    sanitize_table "" = "" ∧ sanitize_column "" = "" ∧
    sanitize_table "??!" = "" ∧ sanitize_column " . " = "_" :=
  ⟨fun _ _ h => by rw [h]; exact ⟨rfl, rfl⟩, by decide, by decide, by decide, by decide⟩

/-- C9 witness: determinism applied at the concrete input `ab`. -/
theorem sanitizers_deterministic_total_witness :
    sanitize_table "ab" = sanitize_table "ab" ∧ sanitize_column "ab" = sanitize_column "ab" :=
  sanitizers_deterministic_total.1 "ab" "ab" rfl

/-- C10: header sanitization is a one-to-one in-place rename — it keeps
the number and order of columns and leaves the row data untouched. -/
theorem sanitize_column_names_frame (t : Table) :
    (sanitize_column_names t).rows = t.rows ∧
    (sanitize_column_names t).columns.length = t.columns.length ∧
    ∀ i : Nat, (sanitize_column_names t).columns[i]? = (t.columns[i]?).map sanitize_column :=
  ⟨rfl, by simp [sanitize_column_names], fun i => by simp [sanitize_column_names]⟩

end QueryPlay
